import Mathlib

/-!
Verification of the session-handling layer of the instagram-downloader
repository. The definitions below are a shallow embedding of the Python
source: src/instagram_downloader/client.py (load_session, _save_session,
list_sessions, remove_session, manual_login, the constructor) and
src/test_session.py (check_session_file). Timestamps are modelled as
integers (epoch seconds); JSON keys that may be absent are modelled as
Option fields; the filesystem is modelled as a map from file names to
optional file contents.
-/

namespace InstagramDL

/-- A cookie record from the stored storage state. Fields are Option to
model the dict.get calls with defaults in the Python source. -/
structure Cookie where
  name : Option String
  expires : Option Int
deriving DecidableEq

/-- The storage_state blob: a playwright storage state, holding cookies
and per-origin entries. -/
structure StorageState where
  cookies : Option (List Cookie)
  origins : Option (List String)
deriving DecidableEq

/-- The metadata envelope written by _save_session. -/
structure Metadata where
  username : Option String
  created_at : Option Int
  last_used : Option Int
deriving DecidableEq

/-- Top level JSON object of a session file. The wrapped format populates
storage_state and metadata; the bare legacy format has cookies and origins
at top level. A missing key is modelled as none. -/
structure SessionData where
  storage_state : Option StorageState
  metadata : Option Metadata
  cookies : Option (List Cookie)
  origins : Option (List String)
deriving DecidableEq

/-- The in-memory client fields relevant to session handling: the
constructor argument self.username, the self.is_logged_in flag, and
self.current_username. -/
structure ClientState where
  username : Option String
  is_logged_in : Bool
  current_username : Option String
deriving DecidableEq

/-- Python truthiness of an optional string: None and the empty string are
falsy, every other string is truthy. -/
def pyTruthy : Option String → Bool
  | none => false
  | some s => !(s == "")

/-- The cookie scan loop shared by load_session and list_sessions: walk the
cookie list looking for a cookie named sessionid whose expires value
(defaulting to 0) is strictly greater than the current time; stop at the
first such cookie; an expired sessionid cookie does not stop the scan. -/
def scanSessionCookie (now : Int) : List Cookie → Bool
  | [] => false
  | c :: rest =>
    if c.name == some "sessionid" then
      if c.expires.getD 0 > now then true
      else scanSessionCookie now rest
    else scanSessionCookie now rest

/-- load_session. The argument file is the current content of
self.session_path (none when the file is missing or unreadable). The result
is the returned boolean, the updated client state, and the content of the
file after the call (load_session rewrites the file to bump last_used when
the session is valid and a metadata block is present). -/
def loadSession (st : ClientState) (file : Option SessionData) (now : Int) :
    Bool × ClientState × Option SessionData :=
  match file with
  | none => (false, st, none)
  | some d =>
    match d.storage_state with
    | none => (false, st, some d)
    | some ss =>
      if scanSessionCookie now (ss.cookies.getD []) then
        match d.metadata with
        | some m =>
          let cu0 := m.username
          let cu := if !(pyTruthy cu0) && pyTruthy st.username then st.username else cu0
          let d2 : SessionData := { d with metadata := some { m with last_used := some now } }
          (true, { st with current_username := cu, is_logged_in := true }, some d2)
        | none => (true, { st with is_logged_in := true }, some d)
      else (false, st, some d)

/-- The writer _save_session. The argument page is the storage state of the
open page (none when no browser page is open); file is the previous content
of the session path, returned unchanged when the guard refuses to save. -/
def saveSession (st : ClientState) (page : Option StorageState) (now : Int)
    (file : Option SessionData) : Option SessionData :=
  if st.is_logged_in = false ∨ page = none then file
  else
    match page with
    | none => file
    | some ss =>
      some { storage_state := some ss,
             metadata := some { username := st.current_username,
                                created_at := some now,
                                last_used := some now },
             cookies := none, origins := none }

/-- check_session_file from src/test_session.py: the file must exist, parse
as JSON, and contain the top level keys cookies and origins (the bare
legacy shape). -/
def checkSessionFile (file : Option SessionData) : Bool :=
  match file with
  | none => false
  | some d =>
    if d.cookies.isNone || d.origins.isNone then false
    else true

/-- Characterwise lower casing: the embedding of the Python str.lower call
(restricted, like Char.toLower, to basic latin letters). -/
def strLower (s : String) : String := ⟨s.data.map Char.toLower⟩

/-- Whether pat is a leading segment of l. -/
def leadsWith : List Char → List Char → Bool
  | [], _ => true
  | _ :: _, [] => false
  | a :: as, b :: bs => a == b && leadsWith as bs

/-- Whether s ends with the given tail: the embedding of the Python
str.endswith call. -/
def strEndsWith (s tail : String) : Bool :=
  leadsWith tail.data.reverse s.data.reverse

/-- Remove every non-overlapping occurrence of pat from l, scanning left to
right: the embedding of the Python str.replace call with an empty
replacement string and a non-empty pattern. -/
def removeOccs (pat : List Char) : List Char → List Char
  | [] => []
  | c :: rest =>
    if 0 < pat.length ∧ leadsWith pat (c :: rest) = true then
      removeOccs pat (rest.drop (pat.length - 1))
    else
      c :: removeOccs pat rest
termination_by l => l.length
decreasing_by
  · simp only [List.length_drop, List.length_cons]
    omega
  · simp only [List.length_cons]
    omega

/-- Remove every occurrence of pat from s. -/
def strRemoveAll (s pat : String) : String := ⟨removeOccs pat.data s.data⟩

/-- The filename-derived username token of list_sessions: strip the
_session.json pattern from the file name, and treat the token default as no
username. -/
def filenameUsername (name : String) : Option String :=
  if strEndsWith name "_session.json" then
    let u := strRemoveAll name "_session.json"
    if u == "default" then none else some u
  else none

/-- A directory entry as seen by list_sessions: the file name, its parsed
content (none when the JSON does not parse), its modification time and its
size in bytes. -/
structure FileInfo where
  name : String
  data : Option SessionData
  mtime : Int
  size : Nat
deriving DecidableEq

/-- One element of the list returned by list_sessions. -/
structure SessionEntry where
  username : String
  file_name : String
  created_at : Int
  last_used : Int
  file_size : Nat
  is_valid : Bool
deriving DecidableEq

/-- The body of the per-file loop of list_sessions: none when the file
content does not parse (the except branch skips the file), otherwise the
dictionary appended to the list. -/
def sessionEntryOf (now : Int) (f : FileInfo) : Option SessionEntry :=
  match f.data with
  | none => none
  | some d =>
    let fu := filenameUsername f.name
    let mu : Option String :=
      match d.metadata with
      | some m => m.username
      | none => none
    let created : Int :=
      match d.metadata with
      | some m => m.created_at.getD 0
      | none => f.mtime
    let lastUsed : Int :=
      match d.metadata with
      | some m => m.last_used.getD 0
      | none => f.mtime
    let user0 : Option String := if pyTruthy mu then mu else fu
    let user : String := if pyTruthy user0 then user0.getD "" else "نامشخص"
    let valid : Bool :=
      match d.storage_state with
      | some ss => scanSessionCookie now (ss.cookies.getD [])
      | none => false
    some { username := user, file_name := f.name, created_at := created,
           last_used := lastUsed, file_size := f.size, is_valid := valid }

/-- The candidate file list of list_sessions: the glob over the pattern
*_session.json (every existing file whose name ends in _session.json),
followed by the explicitly appended default_session.json path, which
survives the existence check exactly when such a file is in the
directory. -/
def sessionCandidates (dir : List FileInfo) : List FileInfo :=
  dir.filter (fun f => strEndsWith f.name "_session.json") ++
    dir.filter (fun f => f.name == "default_session.json")

/-- The sessions list of list_sessions before the final sorted call. -/
def listSessionsUnsorted (dir : List FileInfo) (now : Int) : List SessionEntry :=
  (sessionCandidates dir).filterMap (sessionEntryOf now)

/-- The comparison of the final sorted call of list_sessions: key last_used,
reverse order. -/
def lastUsedDesc (a b : SessionEntry) : Bool := decide (b.last_used ≤ a.last_used)

/-- list_sessions: build the entries and return them sorted by last_used in
descending order; sorted is a stable sort, modelled by the stable
mergeSort. -/
def listSessions (dir : List FileInfo) (now : Int) : List SessionEntry :=
  (listSessionsUnsorted dir now).mergeSort lastUsedDesc

/-- The session file name targeted by remove_session for a username. -/
def removeTargetName (username : String) : String :=
  let f0 := strLower username ++ "_session.json"
  if strLower username == "default" then "default_session.json" else f0

/-- remove_session over a filesystem modelled as a map from file names in
the session directory to optional contents: missing target gives (false,
unchanged filesystem); an existing target is unlinked. -/
def removeSession (fs : String → Option SessionData) (username : String) :
    Bool × (String → Option SessionData) :=
  let target := removeTargetName username
  match fs target with
  | none => (false, fs)
  | some _ => (true, fun n => if n == target then none else fs n)

/-- The session file name chosen by the constructor: a truthy username
argument gives its lower casing followed by _session.json, otherwise the
default name. -/
def initSessionFileName : Option String → String
  | some u => if u == "" then "default_session.json" else strLower u ++ "_session.json"
  | none => "default_session.json"

/-- The possible outcomes of one iteration of the manual_login retry loop,
abstracting the browser interaction. -/
inductive AttemptOutcome where
  | initFailure
  | browserError
  | fatalError
  | stillOnLogin
  | verifyFailed
  | loginOk
deriving DecidableEq

/-- Observable result of a manual_login run: the returned boolean, the
number of loop iterations executed, and the number of two second backoff
sleeps performed. -/
structure LoginRun where
  success : Bool
  attempts : Nat
  sleeps : Nat
deriving DecidableEq

/-- The timeout of the wait_for_url call in manual_login, in milliseconds. -/
def WAIT_FOR_URL_TIMEOUT_MS : Nat := 300000

/-- The backoff delay between manual_login attempts, in seconds. -/
def RETRY_SLEEP_SECONDS : Nat := 2

/-- The default max_retries argument of manual_login. -/
def DEFAULT_MAX_RETRIES : Nat := 3

/-- Whether an outcome is a transient failure, that is one that increments
retry_count and lets the loop continue. -/
def transient : AttemptOutcome → Bool
  | .initFailure => true
  | .browserError => true
  | _ => false

/-- The manual_login while loop. The fuel argument is max_retries minus
retry_count, so the loop guard retry_count < max_retries is fuel being
positive; idx numbers the iterations; s counts backoff sleeps. A browser
initialization failure sleeps unconditionally; a playwright error (which
includes the wait_for_url timeout) sleeps only when a retry remains; every
other outcome returns from the function. -/
def manualLoginGo (outs : Nat → AttemptOutcome) : Nat → Nat → Nat → LoginRun
  | 0, idx, s => { success := false, attempts := idx, sleeps := s }
  | fuel + 1, idx, s =>
    match outs idx with
    | .initFailure => manualLoginGo outs fuel (idx + 1) (s + 1)
    | .browserError => manualLoginGo outs fuel (idx + 1) (if 0 < fuel then s + 1 else s)
    | .fatalError => { success := false, attempts := idx + 1, sleeps := s }
    | .stillOnLogin => { success := false, attempts := idx + 1, sleeps := s }
    | .verifyFailed => { success := false, attempts := idx + 1, sleeps := s }
    | .loginOk => { success := true, attempts := idx + 1, sleeps := s }

/-- manual_login with a given max_retries, run against a stream of attempt
outcomes. -/
def manualLogin (outs : Nat → AttemptOutcome) (maxRetries : Nat) : LoginRun :=
  manualLoginGo outs maxRetries 0 0

/-- The cookie scan returns true exactly when some cookie in the list is
named sessionid and has an expires value strictly beyond the current
time. -/
theorem scanSessionCookie_iff (now : Int) (l : List Cookie) :
    scanSessionCookie now l = true ↔
      ∃ c ∈ l, c.name = some "sessionid" ∧ now < c.expires.getD 0 := by
  induction l with
  | nil => simp [scanSessionCookie]
  | cons c rest ih =>
    simp only [scanSessionCookie, List.mem_cons]
    by_cases h1 : c.name == some "sessionid"
    · rw [if_pos h1]
      have hn : c.name = some "sessionid" := by simpa using h1
      by_cases h2 : c.expires.getD 0 > now
      · rw [if_pos h2]
        simp only [true_iff]
        exact ⟨c, Or.inl rfl, hn, h2⟩
      · rw [if_neg h2, ih]
        constructor
        · rintro ⟨x, hx, hxn, hxe⟩
          exact ⟨x, Or.inr hx, hxn, hxe⟩
        · rintro ⟨x, hx, hxn, hxe⟩
          rcases hx with hx | hx
          · subst hx
            exact absurd hxe h2
          · exact ⟨x, hx, hxn, hxe⟩
    · rw [if_neg h1, ih]
      have hn : ¬ c.name = some "sessionid" := by simpa using h1
      constructor
      · rintro ⟨x, hx, hxn, hxe⟩
        exact ⟨x, Or.inr hx, hxn, hxe⟩
      · rintro ⟨x, hx, hxn, hxe⟩
        rcases hx with hx | hx
        · subst hx
          exact absurd hxn hn
        · exact ⟨x, hx, hxn, hxe⟩

/-- C1: the session validity check of load_session returns true iff a
cookie named sessionid exists in the stored cookie set with an expires
timestamp strictly greater than the current time; an absent storage_state
key or the absence of such a cookie makes load_session return false; on
success load_session sets the in-memory is_logged_in flag; and the
is_valid field computed by list_sessions follows the same criterion. -/
theorem load_session_validity :
    ∀ (st : ClientState) (file : Option SessionData) (now : Int),
      ((loadSession st file now).1 = true ↔
        ∃ d ss, file = some d ∧ d.storage_state = some ss ∧
          ∃ c ∈ ss.cookies.getD [], c.name = some "sessionid" ∧ now < c.expires.getD 0)
      ∧ ((loadSession st file now).1 = true →
          (loadSession st file now).2.1.is_logged_in = true)
      ∧ (∀ (f : FileInfo) (e : SessionEntry), sessionEntryOf now f = some e →
          (e.is_valid = true ↔
            ∃ d ss, f.data = some d ∧ d.storage_state = some ss ∧
              ∃ c ∈ ss.cookies.getD [], c.name = some "sessionid" ∧ now < c.expires.getD 0)) := by
  intro st file now
  refine ⟨?_, ?_, ?_⟩
  · cases file with
    | none => simp [loadSession]
    | some d =>
      obtain ⟨dss, dm, dc, dor⟩ := d
      cases dss with
      | none => simp [loadSession]
      | some ss =>
        by_cases hscan : scanSessionCookie now (ss.cookies.getD []) = true
        · have hex := (scanSessionCookie_iff now (ss.cookies.getD [])).mp hscan
          cases dm with
          | none => simpa [loadSession, hscan] using hex
          | some m => simpa [loadSession, hscan] using hex
        · have hex := (scanSessionCookie_iff now (ss.cookies.getD [])).not.mp hscan
          cases dm with
          | none => simpa [loadSession, hscan] using hex
          | some m => simpa [loadSession, hscan] using hex
  · cases file with
    | none => simp [loadSession]
    | some d =>
      obtain ⟨dss, dm, dc, dor⟩ := d
      cases dss with
      | none => simp [loadSession]
      | some ss =>
        by_cases hscan : scanSessionCookie now (ss.cookies.getD []) = true
        · cases dm with
          | none => simp [loadSession, hscan]
          | some m => simp [loadSession, hscan]
        · cases dm with
          | none => simp [loadSession, hscan]
          | some m => simp [loadSession, hscan]
  · intro f e he
    obtain ⟨fn, fd, fm, fs⟩ := f
    cases fd with
    | none => simp [sessionEntryOf] at he
    | some d =>
      obtain ⟨dss, dm, dc, dor⟩ := d
      simp only [sessionEntryOf, Option.some.injEq] at he
      subst he
      cases dss with
      | none => simp [scanSessionCookie_iff]
      | some ss => simp [scanSessionCookie_iff]

/-- C1 witness: a concrete file with a non-expired sessionid cookie loads
successfully and sets the logged-in flag. -/
theorem load_session_validity_check :
    (loadSession { username := none, is_logged_in := false, current_username := none }
        (some { storage_state :=
                  some { cookies := some [{ name := some "sessionid", expires := some 100 }],
                         origins := some [] },
                metadata := none, cookies := none, origins := none }) 10).2.1.is_logged_in
      = true :=
  (load_session_validity
      { username := none, is_logged_in := false, current_username := none }
      (some { storage_state :=
                some { cookies := some [{ name := some "sessionid", expires := some 100 }],
                       origins := some [] },
              metadata := none, cookies := none, origins := none }) 10).2.1 (by decide)

/-- C2 counterexample: a bare legacy format file, with cookies and origins
at top level and a non-expired sessionid cookie, is rejected by
load_session (the invalid-structure branch), so the load_session read path
does not accept the bare format. -/
theorem bare_format_rejected_by_load :
    (loadSession { username := none, is_logged_in := false, current_username := none }
        (some { storage_state := none, metadata := none,
                cookies := some [{ name := some "sessionid", expires := some 100 }],
                origins := some [] }) 10).1 = false := by
  decide

/-- C2 amended: the standalone session checker check_session_file accepts
every file carrying the bare top level cookies and origins keys, and
list_sessions reads every parseable file into an entry; but load_session
rejects any file lacking the storage_state key, bare legacy files
included. -/
theorem bare_format_read_paths :
    (∀ d : SessionData, d.cookies.isSome = true → d.origins.isSome = true →
        checkSessionFile (some d) = true)
    ∧ (∀ (st : ClientState) (d : SessionData) (now : Int), d.storage_state = none →
        (loadSession st (some d) now).1 = false)
    ∧ (∀ (now : Int) (f : FileInfo) (d : SessionData), f.data = some d →
        (sessionEntryOf now f).isSome = true) := by
  refine ⟨?_, ?_, ?_⟩
  · intro d hc ho
    simp [checkSessionFile, Option.isNone_iff_eq_none]
    constructor
    · intro h
      rw [h] at hc
      simp at hc
    · intro h
      rw [h] at ho
      simp at ho
  · intro st d now hss
    obtain ⟨dss, dm, dc, dor⟩ := d
    simp only at hss
    subst hss
    simp [loadSession]
  · intro now f d hd
    obtain ⟨fn, fd, fm, fs⟩ := f
    simp only at hd
    subst hd
    simp [sessionEntryOf]

/-- C2 amended witness: the concrete bare file of the counterexample input
is accepted by check_session_file. -/
theorem bare_format_read_paths_check :
    checkSessionFile
        (some { storage_state := none, metadata := none,
                cookies := some [{ name := some "sessionid", expires := some 100 }],
                origins := some [] }) = true :=
  bare_format_read_paths.1
    { storage_state := none, metadata := none,
      cookies := some [{ name := some "sessionid", expires := some 100 }],
      origins := some [] } (by decide) (by decide)

/-- C3 counterexample: a client constructed with username alice loading a
session whose metadata names bob resolves the username to bob, so the
explicit constructor argument does not take priority over the session
metadata field. -/
theorem username_precedence_cex :
    (loadSession { username := some "alice", is_logged_in := false, current_username := none }
        (some { storage_state :=
                  some { cookies := some [{ name := some "sessionid", expires := some 100 }],
                         origins := some [] },
                metadata := some { username := some "bob", created_at := some 1,
                                   last_used := some 1 },
                cookies := none, origins := none }) 10).2.1.current_username = some "bob"
    ∧ (some "bob" : Option String) ≠ some "alice" := by
  constructor
  · decide
  · decide

/-- C3 amended: the session metadata field takes priority over the explicit
constructor argument in load_session (the constructor argument is only a
fallback when the metadata username is falsy), and in list_sessions the
metadata field takes priority over the filename-derived token, which takes
priority over the unresolved placeholder. -/
theorem username_precedence_order :
    (∀ (st : ClientState) (d : SessionData) (ss : StorageState) (m : Metadata) (now : Int),
        d.storage_state = some ss → d.metadata = some m →
        scanSessionCookie now (ss.cookies.getD []) = true →
        pyTruthy m.username = true →
        (loadSession st (some d) now).2.1.current_username = m.username)
    ∧ (∀ (st : ClientState) (d : SessionData) (ss : StorageState) (m : Metadata) (now : Int),
        d.storage_state = some ss → d.metadata = some m →
        scanSessionCookie now (ss.cookies.getD []) = true →
        pyTruthy m.username = false → pyTruthy st.username = true →
        (loadSession st (some d) now).2.1.current_username = st.username)
    ∧ (∀ (now : Int) (f : FileInfo) (d : SessionData) (m : Metadata) (e : SessionEntry),
        f.data = some d → d.metadata = some m → sessionEntryOf now f = some e →
        pyTruthy m.username = true → e.username = m.username.getD "")
    ∧ (∀ (now : Int) (f : FileInfo) (d : SessionData) (m : Metadata) (e : SessionEntry),
        f.data = some d → d.metadata = some m → sessionEntryOf now f = some e →
        pyTruthy m.username = false → pyTruthy (filenameUsername f.name) = true →
        e.username = (filenameUsername f.name).getD "")
    ∧ (∀ (now : Int) (f : FileInfo) (d : SessionData) (m : Metadata) (e : SessionEntry),
        f.data = some d → d.metadata = some m → sessionEntryOf now f = some e →
        pyTruthy m.username = false → pyTruthy (filenameUsername f.name) = false →
        e.username = "نامشخص") := by
  refine ⟨?_, ?_, ?_, ?_, ?_⟩
  · intro st d ss m now hss hm hscan hmu
    obtain ⟨dss, dm, dc, dor⟩ := d
    simp only at hss hm
    subst hss
    subst hm
    simp [loadSession, hscan, hmu]
  · intro st d ss m now hss hm hscan hmu hsu
    obtain ⟨dss, dm, dc, dor⟩ := d
    simp only at hss hm
    subst hss
    subst hm
    simp [loadSession, hscan, hmu, hsu]
  · intro now f d m e hd hm he hmu
    obtain ⟨fn, fd, fm, fs⟩ := f
    simp only at hd
    subst hd
    obtain ⟨dss, dm, dc, dor⟩ := d
    simp only at hm
    subst hm
    simp only [sessionEntryOf, hmu, if_true, Option.some.injEq] at he
    subst he
    simp [hmu]
  · intro now f d m e hd hm he hmu hfu
    obtain ⟨fn, fd, fm, fs⟩ := f
    simp only at hd
    subst hd
    obtain ⟨dss, dm, dc, dor⟩ := d
    simp only at hm
    subst hm
    simp only [sessionEntryOf, hmu, Bool.false_eq_true, if_false, Option.some.injEq] at he
    subst he
    simp [hmu, hfu]
  · intro now f d m e hd hm he hmu hfu
    obtain ⟨fn, fd, fm, fs⟩ := f
    simp only at hd
    subst hd
    obtain ⟨dss, dm, dc, dor⟩ := d
    simp only at hm
    subst hm
    simp only [sessionEntryOf, hmu, Bool.false_eq_true, if_false, Option.some.injEq] at he
    subst he
    simp [hmu, hfu]

/-- C3 amended witness: with a truthy metadata username bob and constructor
argument alice, load_session resolves bob. -/
theorem username_precedence_order_check :
    (loadSession { username := some "alice", is_logged_in := false, current_username := none }
        (some { storage_state :=
                  some { cookies := some [{ name := some "sessionid", expires := some 100 }],
                         origins := some [] },
                metadata := some { username := some "bob", created_at := some 1,
                                   last_used := some 1 },
                cookies := none, origins := none }) 10).2.1.current_username
      = some "bob" :=
  username_precedence_order.1
    { username := some "alice", is_logged_in := false, current_username := none }
    { storage_state :=
        some { cookies := some [{ name := some "sessionid", expires := some 100 }],
               origins := some [] },
      metadata := some { username := some "bob", created_at := some 1, last_used := some 1 },
      cookies := none, origins := none }
    { cookies := some [{ name := some "sessionid", expires := some 100 }],
      origins := some [] }
    { username := some "bob", created_at := some 1, last_used := some 1 }
    10 rfl rfl (by decide) (by decide)

/-- C4: a session record written by _save_session at time tw and reloaded by
load_session at a later time tl (with a non-expired sessionid cookie in the
saved storage state) is written back with a metadata block identical to the
written one except last_used, which is updated to tl, a timestamp at least
the write time. -/
theorem save_load_roundtrip :
    ∀ (st st2 : ClientState) (ss : StorageState) (tw tl : Int),
      st.is_logged_in = true → tw ≤ tl →
      scanSessionCookie tl (ss.cookies.getD []) = true →
      ∃ d m,
        saveSession st (some ss) tw none = some d ∧
        d.metadata = some m ∧
        m = { username := st.current_username, created_at := some tw, last_used := some tw } ∧
        (loadSession st2 (saveSession st (some ss) tw none) tl).1 = true ∧
        (loadSession st2 (saveSession st (some ss) tw none) tl).2.2 =
          some { d with metadata := some { m with last_used := some tl } } ∧
        tw ≤ tl := by
  intro st st2 ss tw tl hlog hle hscan
  refine ⟨{ storage_state := some ss,
            metadata := some { username := st.current_username,
                               created_at := some tw, last_used := some tw },
            cookies := none, origins := none },
          { username := st.current_username, created_at := some tw, last_used := some tw },
          ?_, rfl, rfl, ?_, ?_, hle⟩
  · simp [saveSession, hlog]
  · simp [saveSession, hlog, loadSession, hscan]
  · simp [saveSession, hlog, loadSession, hscan]

/-- C4 witness: a concrete round trip at write time 5 and reload time 7. -/
theorem save_load_roundtrip_check :
    ∃ d m,
      saveSession { username := none, is_logged_in := true, current_username := some "alice" }
          (some { cookies := some [{ name := some "sessionid", expires := some 100 }],
                  origins := some [] }) 5 none = some d ∧
      d.metadata = some m ∧
      m = { username := some "alice", created_at := some 5, last_used := some 5 } ∧
      (loadSession { username := none, is_logged_in := false, current_username := none }
          (saveSession { username := none, is_logged_in := true, current_username := some "alice" }
            (some { cookies := some [{ name := some "sessionid", expires := some 100 }],
                    origins := some [] }) 5 none) 7).1 = true ∧
      (loadSession { username := none, is_logged_in := false, current_username := none }
          (saveSession { username := none, is_logged_in := true, current_username := some "alice" }
            (some { cookies := some [{ name := some "sessionid", expires := some 100 }],
                    origins := some [] }) 5 none) 7).2.2 =
        some { d with metadata := some { m with last_used := some 7 } } ∧
      (5 : Int) ≤ 7 :=
  save_load_roundtrip
    { username := none, is_logged_in := true, current_username := some "alice" }
    { username := none, is_logged_in := false, current_username := none }
    { cookies := some [{ name := some "sessionid", expires := some 100 }], origins := some [] }
    5 7 rfl (by decide) (by decide)

/-- The reverse comparison on last_used is transitive. -/
theorem lastUsedDesc_trans : ∀ (a b c : SessionEntry),
    lastUsedDesc a b → lastUsedDesc b c → lastUsedDesc a c := by
  intro a b c hab hbc
  simp only [lastUsedDesc, decide_eq_true_eq] at hab hbc ⊢
  omega

/-- The reverse comparison on last_used is total. -/
theorem lastUsedDesc_total : ∀ (a b : SessionEntry),
    lastUsedDesc a b || lastUsedDesc b a := by
  intro a b
  simp only [lastUsedDesc, Bool.or_eq_true, decide_eq_true_eq]
  omega

/-- Stability of the sort of list_sessions: restricting the sorted output to
the entries of any fixed last_used value gives exactly the corresponding
restriction of the input, in input order. -/
theorem mergeSort_lastUsed_filter (pre : List SessionEntry) (k : Int) :
    (pre.mergeSort lastUsedDesc).filter (fun e => e.last_used == k)
      = pre.filter (fun e => e.last_used == k) := by
  have hpair : (pre.filter (fun e => e.last_used == k)).Pairwise
      (fun a b => lastUsedDesc a b = true) := by
    apply List.pairwise_of_forall_mem_list
    intro a ha b hb
    have ha2 : a.last_used = k := by simpa using (List.mem_filter.mp ha).2
    have hb2 : b.last_used = k := by simpa using (List.mem_filter.mp hb).2
    simp only [lastUsedDesc, decide_eq_true_eq]
    omega
  have hsub : List.Sublist (pre.filter (fun e => e.last_used == k))
      (pre.mergeSort lastUsedDesc) :=
    List.sublist_mergeSort lastUsedDesc_trans lastUsedDesc_total hpair
      (List.filter_sublist pre)
  have hsub2 := hsub.filter (fun e => e.last_used == k)
  rw [List.filter_eq_self.mpr (fun a ha => (List.mem_filter.mp ha).2)] at hsub2
  have hlen : ((pre.mergeSort lastUsedDesc).filter (fun e => e.last_used == k)).length
      = (pre.filter (fun e => e.last_used == k)).length := by
    rw [← List.countP_eq_length_filter, ← List.countP_eq_length_filter]
    exact (List.mergeSort_perm pre lastUsedDesc).countP_eq _
  exact (hsub2.eq_of_length hlen.symm).symm

/-- C5: list_sessions returns the readable entries sorted by last_used in
descending order; the output is a permutation of the entries in encounter
order, and entries of equal last_used keep their relative input order. -/
theorem list_sessions_sorted_stable :
    ∀ (dir : List FileInfo) (now : Int),
      (listSessions dir now).Pairwise (fun a b => b.last_used ≤ a.last_used)
      ∧ (listSessions dir now).Perm (listSessionsUnsorted dir now)
      ∧ (∀ k : Int, (listSessions dir now).filter (fun e => e.last_used == k)
          = (listSessionsUnsorted dir now).filter (fun e => e.last_used == k)) := by
  intro dir now
  refine ⟨?_, ?_, ?_⟩
  · have h := List.sorted_mergeSort lastUsedDesc_trans lastUsedDesc_total
      (listSessionsUnsorted dir now)
    exact h.imp (by intro a b hab; simpa [lastUsedDesc] using hab)
  · exact List.mergeSort_perm (listSessionsUnsorted dir now) lastUsedDesc
  · intro k
    exact mergeSort_lastUsed_filter (listSessionsUnsorted dir now) k

/-- C6: removing a session whose file does not exist returns false and
leaves the filesystem unchanged. -/
theorem remove_session_missing :
    ∀ (fs : String → Option SessionData) (u : String),
      fs (removeTargetName u) = none →
      removeSession fs u = (false, fs) := by
  intro fs u h
  simp [removeSession, h]

/-- C6 witness: removing the session of alice from an empty directory. -/
theorem remove_session_missing_check :
    removeSession (fun _ => none) "alice" = (false, fun _ => none) :=
  remove_session_missing (fun _ => none) "alice" rfl

/-- C7: removing an existing session returns true, deletes exactly the file
named by the lower-cased username followed by _session.json (which for the
username default is the default session file name), and leaves every other
file unchanged. -/
theorem remove_session_deletes_exactly :
    ∀ (fs : String → Option SessionData) (u : String) (d : SessionData),
      fs (removeTargetName u) = some d →
      (removeSession fs u).1 = true
      ∧ (removeSession fs u).2 (removeTargetName u) = none
      ∧ (∀ n, n ≠ removeTargetName u → (removeSession fs u).2 n = fs n)
      ∧ removeTargetName u = strLower u ++ "_session.json" := by
  intro fs u d h
  refine ⟨?_, ?_, ?_, ?_⟩
  · simp [removeSession, h]
  · simp [removeSession, h]
  · intro n hn
    simp only [removeSession, h]
    rw [if_neg (by simpa using hn)]
  · simp only [removeTargetName]
    by_cases hd : strLower u == "default"
    · rw [if_pos hd]
      have he : strLower u = "default" := by simpa using hd
      rw [he]
      decide
    · rw [if_neg hd]

/-- C7 witness: removing the session of Alice deletes alice_session.json. -/
theorem remove_session_deletes_exactly_check :
    (removeSession
        (fun n => if n == "alice_session.json"
          then some { storage_state := none, metadata := none, cookies := none,
                      origins := none }
          else none) "Alice").1 = true :=
  (remove_session_deletes_exactly
      (fun n => if n == "alice_session.json"
        then some { storage_state := none, metadata := none, cookies := none,
                    origins := none }
        else none) "Alice"
      { storage_state := none, metadata := none, cookies := none, origins := none }
      (by decide)).1

/-- The retry loop executes at most idx plus fuel iterations in total. -/
theorem manualLoginGo_attempts_le (outs : Nat → AttemptOutcome) :
    ∀ (fuel idx s : Nat), (manualLoginGo outs fuel idx s).attempts ≤ idx + fuel := by
  intro fuel
  induction fuel with
  | zero => intro idx s; simp [manualLoginGo]
  | succ n ih =>
    intro idx s
    simp only [manualLoginGo]
    cases outs idx with
    | initFailure =>
        have hrec := ih (idx + 1) (s + 1)
        show (manualLoginGo outs n (idx + 1) (s + 1)).attempts ≤ idx + (n + 1)
        omega
    | browserError =>
        have hrec := ih (idx + 1) (if 0 < n then s + 1 else s)
        show (manualLoginGo outs n (idx + 1) (if 0 < n then s + 1 else s)).attempts
          ≤ idx + (n + 1)
        omega
    | fatalError => show idx + 1 ≤ idx + (n + 1); omega
    | stillOnLogin => show idx + 1 ≤ idx + (n + 1); omega
    | verifyFailed => show idx + 1 ≤ idx + (n + 1); omega
    | loginOk => show idx + 1 ≤ idx + (n + 1); omega

/-- Against a stream of transient failures only, the retry loop consumes all
its fuel and returns false. -/
theorem manualLoginGo_transient (outs : Nat → AttemptOutcome)
    (h : ∀ i, transient (outs i) = true) :
    ∀ (fuel idx s : Nat), (manualLoginGo outs fuel idx s).success = false
      ∧ (manualLoginGo outs fuel idx s).attempts = idx + fuel := by
  intro fuel
  induction fuel with
  | zero => intro idx s; simp [manualLoginGo]
  | succ n ih =>
    intro idx s
    simp only [manualLoginGo]
    cases ho : outs idx with
    | initFailure =>
        have := ih (idx + 1) (s + 1)
        constructor
        · exact this.1
        · rw [this.2]; omega
    | browserError =>
        have := ih (idx + 1) (if 0 < n then s + 1 else s)
        constructor
        · exact this.1
        · rw [this.2]; omega
    | fatalError => have := h idx; rw [ho] at this; simp [transient] at this
    | stillOnLogin => have := h idx; rw [ho] at this; simp [transient] at this
    | verifyFailed => have := h idx; rw [ho] at this; simp [transient] at this
    | loginOk => have := h idx; rw [ho] at this; simp [transient] at this

/-- C8: manual_login waits for the post-login navigation under a fixed five
minute bound (the 300000 ms wait_for_url timeout), retries transient
browser failures at most max_retries times (3 by default) with a fixed two
second backoff, and when every attempt fails transiently it terminates
after exactly the maximum number of attempts returning false. -/
theorem manual_login_bounded :
    WAIT_FOR_URL_TIMEOUT_MS = 5 * 60 * 1000
    ∧ RETRY_SLEEP_SECONDS = 2
    ∧ DEFAULT_MAX_RETRIES = 3
    ∧ (∀ (outs : Nat → AttemptOutcome) (m : Nat), (manualLogin outs m).attempts ≤ m)
    ∧ (∀ outs : Nat → AttemptOutcome, (∀ i, transient (outs i) = true) →
        (manualLogin outs DEFAULT_MAX_RETRIES).success = false
        ∧ (manualLogin outs DEFAULT_MAX_RETRIES).attempts = DEFAULT_MAX_RETRIES) := by
  refine ⟨rfl, rfl, rfl, ?_, ?_⟩
  · intro outs m
    simpa using manualLoginGo_attempts_le outs m 0 0
  · intro outs h
    have := manualLoginGo_transient outs h DEFAULT_MAX_RETRIES 0 0
    exact ⟨this.1, by simpa using this.2⟩

/-- C8 witness: when every attempt raises a browser error, manual_login
with the default retry budget gives up after three attempts. -/
theorem manual_login_bounded_check :
    (manualLogin (fun _ => AttemptOutcome.browserError) DEFAULT_MAX_RETRIES).success = false
    ∧ (manualLogin (fun _ => AttemptOutcome.browserError) DEFAULT_MAX_RETRIES).attempts
        = DEFAULT_MAX_RETRIES :=
  manual_login_bounded.2.2.2.2 (fun _ => AttemptOutcome.browserError) (fun _ => rfl)

/-- Unfolding equation for Char.toLower. -/
theorem char_toLower_eq (c : Char) :
    c.toLower = if c.toNat ≥ 65 ∧ c.toNat ≤ 90 then Char.ofNat (c.toNat + 32) else c := rfl

/-- Converting a valid code point to a character and back is the
identity. -/
theorem char_toNat_ofNat_valid (n : Nat) (h : n.isValidChar) :
    (Char.ofNat n).toNat = n := by
  unfold Char.ofNat
  rw [dif_pos h]
  rfl

/-- Lower casing a character twice is the same as lower casing it once. -/
theorem char_toLower_toLower (c : Char) : c.toLower.toLower = c.toLower := by
  rw [char_toLower_eq c]
  by_cases h : c.toNat ≥ 65 ∧ c.toNat ≤ 90
  · rw [if_pos h, char_toLower_eq]
    have hv : (c.toNat + 32).isValidChar := Or.inl (by omega)
    rw [char_toNat_ofNat_valid _ hv]
    rw [if_neg (by omega)]
  · rw [if_neg h, char_toLower_eq, if_neg h]

/-- Lower casing a string twice is the same as lower casing it once. -/
theorem strLower_strLower (s : String) : strLower (strLower s) = strLower s := by
  show (⟨(s.data.map Char.toLower).map Char.toLower⟩ : String) = ⟨s.data.map Char.toLower⟩
  rw [List.map_map]
  congr 1
  apply List.map_congr_left
  intro c hc
  simp only [Function.comp_apply]
  exact char_toLower_toLower c

/-- A string lower cases to the empty string only if it is empty. -/
theorem strLower_eq_empty (s : String) (h : strLower s = "") : s = "" := by
  obtain ⟨l⟩ := s
  have hd : l.map Char.toLower = [] := congrArg String.data h
  have : l = [] := by simpa using hd
  rw [this]

/-- C9: username normalization is idempotent. Resolving the session file
name from an already lower-cased username gives the same file name, both
in the constructor and in remove_session; a truthy username resolves to
its lower casing followed by _session.json, and an absent username to
default_session.json. -/
theorem session_filename_idempotent :
    (∀ s : String, initSessionFileName (some (strLower s)) = initSessionFileName (some s))
    ∧ (∀ s : String, removeTargetName (strLower s) = removeTargetName s)
    ∧ (∀ s : String, s ≠ "" → initSessionFileName (some s) = strLower s ++ "_session.json")
    ∧ initSessionFileName none = "default_session.json" := by
  refine ⟨?_, ?_, ?_, rfl⟩
  · intro s
    by_cases hs : s = ""
    · subst hs; rfl
    · have h2 : strLower s ≠ "" := fun h => hs (strLower_eq_empty s h)
      simp only [initSessionFileName]
      rw [if_neg (by simpa using h2), if_neg (by simpa using hs), strLower_strLower]
  · intro s
    simp only [removeTargetName, strLower_strLower]
  · intro s hs
    simp only [initSessionFileName]
    rw [if_neg (by simpa using hs)]

/-- C9 witness: the file name for the username Alice, already normalized,
resolves again to the same file name. -/
theorem session_filename_idempotent_check :
    initSessionFileName (some "alice") = strLower "Alice" ++ "_session.json" :=
  session_filename_idempotent.2.2.1 "Alice" (by decide)

/-- Entries produced by the per-file loop, counted by file name: one entry
per candidate of that name whose content parses. -/
theorem countP_entries_by_name (now : Int) (nm : String) : ∀ (l : List FileInfo),
    (l.filterMap (sessionEntryOf now)).countP (fun e => e.file_name == nm)
      = l.countP (fun f => f.name == nm && f.data.isSome) := by
  intro l
  induction l with
  | nil => rfl
  | cons f rest ih =>
    obtain ⟨fn, fd, fm, fsz⟩ := f
    cases fd with
    | none => simp [sessionEntryOf, List.countP_cons, ih]
    | some d => simp [sessionEntryOf, List.filterMap_cons, List.countP_cons, ih]

/-- C10: a directory holding a readable default_session.json produces two
entries for that file in list_sessions, because the glob pattern already
matches it and the same path is appended a second time. -/
theorem default_session_double_listed :
    ∀ (dir : List FileInfo) (now : Int),
      dir.countP (fun f => f.name == "default_session.json") = 1 →
      (∀ f ∈ dir, f.name = "default_session.json" → f.data.isSome = true) →
      (listSessions dir now).countP (fun e => e.file_name == "default_session.json") = 2 := by
  intro dir now h1 h2
  have hperm := (List.mergeSort_perm (listSessionsUnsorted dir now) lastUsedDesc).countP_eq
      (fun e => e.file_name == "default_session.json")
  rw [listSessions, hperm, listSessionsUnsorted, countP_entries_by_name,
    sessionCandidates, List.countP_append, List.countP_filter, List.countP_filter]
  have hc1 : dir.countP
      (fun f => (f.name == "default_session.json" && f.data.isSome)
        && strEndsWith f.name "_session.json") = 1 := by
    rw [← h1]
    apply List.countP_congr
    intro f hf
    simp only [Bool.and_eq_true, beq_iff_eq]
    constructor
    · rintro ⟨⟨hn, _⟩, _⟩; exact hn
    · intro hn
      refine ⟨⟨hn, h2 f hf hn⟩, ?_⟩
      rw [hn]
      decide
  have hc2 : dir.countP
      (fun f => (f.name == "default_session.json" && f.data.isSome)
        && (f.name == "default_session.json")) = 1 := by
    rw [← h1]
    apply List.countP_congr
    intro f hf
    simp only [Bool.and_eq_true, beq_iff_eq]
    constructor
    · rintro ⟨⟨hn, _⟩, _⟩; exact hn
    · intro hn
      exact ⟨⟨hn, h2 f hf hn⟩, hn⟩
  rw [hc1, hc2]

/-- C10 witness: a directory with exactly one readable default session file
yields two entries for it. -/
theorem default_session_double_listed_check :
    (listSessions
        [{ name := "default_session.json",
           data := some { storage_state := none, metadata := none, cookies := none,
                          origins := none },
           mtime := 0, size := 10 }] 0).countP
      (fun e => e.file_name == "default_session.json") = 2 :=
  default_session_double_listed
    [{ name := "default_session.json",
       data := some { storage_state := none, metadata := none, cookies := none,
                      origins := none },
       mtime := 0, size := 10 }] 0 (by decide) (by decide)

end InstagramDL
